import Mathlib

/-!
Verification development for the drone-makeflow step orchestrator
(`drone_makeflow.py`).  The Python source is shallowly embedded: pure
helpers become Lean functions, dynamic dictionaries become association
lists over a `JValue` tree, network calls are abstracted by an explicit
`Remote` oracle plus an `Effect` log, and the process-supervision wait
loop is modelled over a trace of clock observations.
-/

namespace DroneMakeflow

/-- Model of Python `str.lower()` (ASCII case folding on each character). -/
def lowerStr (s : String) : String := ⟨s.data.map Char.toLower⟩

/-- Model of Python `str.endswith(sfx)`. -/
def endsWithStr (s sfx : String) : Bool := sfx.data.isSuffixOf s.data

/-- Model of Python `str.startswith(pfx)`. -/
def startsWithStr (s pfx : String) : Bool := pfx.data.isPrefixOf s.data

/-- The character set stripped by `.lstrip('/\\')` / `.rstrip('/\\')` in the source. -/
def isSlashChar (c : Char) : Bool := c == '/' || c == '\\'

/-- Model of Python `str.lstrip('/\\')`. -/
def lstripSlashes (s : String) : String := ⟨s.data.dropWhile isSlashChar⟩

/-- Model of Python `str.rstrip('/\\')`. -/
def rstripSlashes (s : String) : String := ⟨(s.data.reverse.dropWhile isSlashChar).reverse⟩

/-- Model of POSIX `os.path.join(a, b)`: an absolute second component replaces
the first; otherwise the parts are concatenated, inserting `/` unless the first
part is empty or already ends in `/`. -/
def pjoin (a b : String) : String :=
  if startsWithStr b "/" then b
  else if a == "" || endsWithStr a "/" then a ++ b
  else a ++ "/" ++ b

/-- Model of POSIX `os.path.basename`: everything after the last `/`. -/
def basename (p : String) : String :=
  ⟨(p.data.reverse.takeWhile (fun c => c != '/')).reverse⟩

/-- Index of the last occurrence of a character, as in Python `str.rfind`. -/
def lastIndexOf (c : Char) (cs : List Char) : Option Nat :=
  match cs.reverse.findIdx? (fun x => x == c) with
  | some k => some (cs.length - 1 - k)
  | none => none

/-- Model of POSIX `os.path.splitext`: splits at the last dot of the final path
component, except that a basename consisting only of leading dots up to that
dot has no extension. -/
def splitext_split (p : String) : String × String :=
  let cs := p.data
  let fstart : Nat := match lastIndexOf '/' cs with | some i => i + 1 | none => 0
  match lastIndexOf '.' cs with
  | some d =>
    if fstart ≤ d then
      if ((cs.drop fstart).take (d - fstart)).any (fun ch => ch != '.') then
        (⟨cs.take d⟩, ⟨cs.drop d⟩)
      else (p, "")
    else (p, "")
  | none => (p, "")

/-- `os.path.splitext(p)[0]`. -/
def splitextRoot (p : String) : String := (splitext_split p).1

/-- `os.path.splitext(p)[1]`. -/
def splitextExt (p : String) : String := (splitext_split p).2

/-- Dynamic JSON/YAML-like values as they flow through the Python code:
string leaves, integer leaves, arrays and string-keyed mappings.  Python
dictionaries are embedded as association lists in insertion order. -/
inductive JValue where
  | str : String → JValue
  | int : Int → JValue
  | list : List JValue → JValue
  | dict : List (String × JValue) → JValue

mutual

/-- Size of a `JValue`; only mappings contribute their entries, because
`find_dict_key` descends only into nested mappings. -/
def jsize : JValue → Nat
  | .str _ => 1
  | .int _ => 1
  | .list _ => 1
  | .dict l => 1 + lsize l

/-- Size of a mapping's entry list. -/
def lsize : List (String × JValue) → Nat
  | [] => 0
  | (_, v) :: rest => 1 + jsize v + lsize rest

end

/-- The key comparison of `find_dict_key` (line 535 of the source):
`one_key == check_key or (case_insensitive and one_key.lower() == check_key)`. -/
def keyMatch (case_insensitive : Bool) (check_key one_key : String) : Bool :=
  one_key == check_key || (case_insensitive && lowerStr one_key == check_key)

/-- The first phase of the `find_dict_key` loop: return the first entry of the
current level whose key matches, scanning in insertion order. -/
def scan_level (haystack : List (String × JValue)) (check_key : String)
    (case_insensitive : Bool) : Option (String × JValue) :=
  match haystack with
  | [] => none
  | (k, v) :: rest =>
    if keyMatch case_insensitive check_key k then some (k, v)
    else scan_level rest check_key case_insensitive

/-- The `dict_checks` list accumulated by the `find_dict_key` loop: the values
of the current level that are themselves mappings, in insertion order. -/
def collect_dicts (haystack : List (String × JValue)) : List (List (String × JValue)) :=
  haystack.filterMap (fun kv => match kv.2 with | JValue.dict d => some d | _ => none)

mutual

/-- `__internal__.find_dict_key` (source lines 517-546): breadth-first key
search.  All keys of the current level are compared first (case-insensitively
when `case_insensitive` is true, against the lowered key); only when none
matches are the nested mappings searched left to right, and those recursive
searches pass `case_insensitive = False` together with the already-lowered
check key. -/
def find_dict_key (haystack : List (String × JValue)) (key : String)
    (case_insensitive : Bool) : Option (String × JValue) :=
  match scan_level haystack (if case_insensitive then lowerStr key else key) case_insensitive with
  | some r => some r
  | none =>
    find_in_dicts (collect_dicts haystack) (if case_insensitive then lowerStr key else key)
termination_by 2 * lsize haystack + 1
decreasing_by
  have hb : ((collect_dicts haystack).map lsize).sum + (collect_dicts haystack).length
      ≤ lsize haystack := by
    clear * -
    induction haystack with
    | nil => simp [collect_dicts, lsize]
    | cons kv rest ih =>
      obtain ⟨k, v⟩ := kv
      cases v with
      | dict d =>
        simp only [collect_dicts, List.filterMap_cons] at *
        simp only [List.map_cons, List.sum_cons, List.length_cons, lsize, jsize]
        omega
      | str s =>
        simp only [collect_dicts, List.filterMap_cons] at *
        simp only [lsize, jsize]
        omega
      | int n =>
        simp only [collect_dicts, List.filterMap_cons] at *
        simp only [lsize, jsize]
        omega
      | list l =>
        simp only [collect_dicts, List.filterMap_cons] at *
        simp only [lsize, jsize]
        omega
  omega

/-- The second phase of `find_dict_key`: search each accumulated nested
mapping in order, returning the first hit (source lines 541-544). -/
def find_in_dicts (ds : List (List (String × JValue))) (check_key : String) :
    Option (String × JValue) :=
  match ds with
  | [] => none
  | d :: rest =>
    match find_dict_key d check_key false with
    | some r => some r
    | none => find_in_dicts rest check_key
termination_by 2 * (ds.map lsize).sum + 2 * ds.length
decreasing_by
  · simp only [List.map_cons, List.sum_cons, List.length_cons]
    omega
  · simp only [List.map_cons, List.sum_cons, List.length_cons]
    omega

end

/-- Modelled from the spec: credential encryption (`encrypt_pipeline_string`
from `terrautils.secure`) is not part of this repository.  The spec models it
"only as a black-box `secure(plaintext) -> secured-form | null`" whose
non-null secured output "never equals the original plaintext"; the field
`secured_ne_plain` records that contract for the prefixed secured form
produced by `secure_string`. -/
structure Encryption where
  encrypt : String → Option String
  secured_ne_plain : ∀ s e, encrypt s = some e → "secured:" ++ e ≠ s

/-- `__internal__.secure_string` (source lines 548-559): prefix the encrypted
form with `"secured:"`, or yield the literal marker `"<removed>"` when the
encryption black box returns null. -/
def secure_string (E : Encryption) (plain_text : String) : String :=
  match E.encrypt plain_text with
  | some encrypted => "secured:" ++ encrypted
  | none => "<removed>"

/-- Result of the credential-reconciliation fragment: either the final value
of the workstep audit metadata's `password` field (`none` when the field was
never written), or `modelError` for inputs on which the Python fragment
raises a `TypeError`/`AttributeError` (a non-mapping `clowder` value, or a
non-string password handed to `secure_string`). -/
inductive AuditResult where
  | ok : Option JValue → AuditResult
  | modelError : AuditResult

/-- The credential-reconciliation fragment of `process_message` (source lines
707-721), projected onto the workstep audit metadata's `password` field.  The
field starts absent (the copied step definition has no `password` key), is
overwritten by the `space` value, then the `username` value, then the secured
`password` value, for whichever of those keys `find_dict_key` locates in the
`clowder` mapping. -/
def step_audit_password (E : Encryption) (experiment_metadata : List (String × JValue)) :
    AuditResult :=
  match find_dict_key experiment_metadata "clowder" true with
  | none => AuditResult.ok none
  | some (_, JValue.dict clowder_md) =>
    let after_space : Option JValue :=
      match find_dict_key clowder_md "space" true with
      | some (_, v) => some v
      | none => none
    let after_username : Option JValue :=
      match find_dict_key clowder_md "username" true with
      | some (_, v) => some v
      | none => after_space
    match find_dict_key clowder_md "password" true with
    | some (_, JValue.str password_plain) =>
      AuditResult.ok (some (JValue.str (secure_string E password_plain)))
    | some (_, _) => AuditResult.modelError
    | none => AuditResult.ok after_username
  | some (_, _) => AuditResult.modelError

/-- One step of the `WORKFLOW` configuration list (source lines 41-60).  The
lambda-valued success predicate becomes a Lean function; the optional
`dataset_name_template` key becomes an `Option`. -/
structure WorkflowStep where
  name : String
  makeflow_file : String
  docker_version_number : String
  arguments : Option String
  return_code_success : Int → Bool
  force_dataset : Bool
  dataset_name_template : Option String

/-- First `WORKFLOW` entry: the OpenDroneMap step. -/
def odm_step : WorkflowStep :=
  ⟨"OpenDroneMap workflow", "odm_workflow.jx", "2.0", none,
    fun code => code == 0, true, some "{date}_{experiment}_{name}"⟩

/-- Second `WORKFLOW` entry: the Soil Mask step. -/
def soil_mask_step : WorkflowStep :=
  ⟨"Soil Mask workflow", "soil_mask_workflow.jx", "2.0", none,
    fun code => code == 0, false, some "{date}_{experiment}_{name}"⟩

/-- The compiled-in two-step pipeline (source lines 41-60). -/
def WORKFLOW : List WorkflowStep := [odm_step, soil_mask_step]

/-- The `parent` sub-dictionary of a request's `resource` dictionary. -/
structure ParentInfo where
  ptype : Option String
  pid : Option String

/-- The request `resource` dictionary as used by the orchestrator: optional
`type`/`id`/`parent` keys plus the `local_paths` list of staged input files. -/
structure ResourceInfo where
  rtype : Option String
  rid : Option String
  parent : Option ParentInfo
  local_paths : List String

/-- The per-step environment dictionary written to `env.json`
(source lines 136-162). -/
structure StepEnv where
  IMAGE_MOUNT_SOURCE : String
  DOCKER_VERSION : String
  BASE_DIR : String
  RELATIVE_WORKING_FOLDER : String
  CACHE_DIR : String
  DATA_FOLDER_NAME : String
  EXPERIMENT_METADATA_FILENAME : String
  RESULTS_FILE_PATH : String

/-- `__internal__.create_env_json` (source lines 116-162).  Returns `none`
exactly where the Python raises `RuntimeError` because no file of the
request's `local_paths` ends (case-insensitively) in `.yaml`; otherwise the
first such file is the experiment descriptor and its base name becomes
`EXPERIMENT_METADATA_FILENAME`. -/
def create_env_json (out_folder image_subfolder mount_volume_name : String)
    (workflow_step : WorkflowStep) (resources : ResourceInfo) : Option StepEnv :=
  let data_folder_name := lstripSlashes (splitextRoot (basename workflow_step.makeflow_file))
  let base_dir := "/mnt/"
  let relative_working_folder :=
    rstripSlashes (lstripSlashes (pjoin image_subfolder data_folder_name)) ++ "/"
  let cache_dir := pjoin (pjoin base_dir relative_working_folder) "cache" ++ "/"
  let data_folder := lstripSlashes (pjoin relative_working_folder "images")
  match resources.local_paths.find? (fun f => endsWithStr (lowerStr f) ".yaml") with
  | some found_experiment =>
    some ⟨mount_volume_name, workflow_step.docker_version_number, base_dir,
      relative_working_folder, cache_dir, data_folder, basename found_experiment,
      pjoin out_folder "results.json"⟩
  | none => none

/-- Which loader `process_message` picks for the relocated experiment file
(source lines 697-700): YAML for `.yml`/`.yaml` extensions, JSON otherwise. -/
inductive LoadFunc where
  | yaml
  | json
deriving DecidableEq

/-- The loader choice `yaml.safe_load` versus `json.load` keyed on
`os.path.splitext(experiment_path)[1]`. -/
def choose_load_func (experiment_path : String) : LoadFunc :=
  if splitextExt experiment_path == ".yml" || splitextExt experiment_path == ".yaml" then
    LoadFunc.yaml
  else LoadFunc.json

/-- The argument handed to `relocate_files` for a step: either the request's
resource set (first step) or a previous cache directory path. -/
inductive StagingSrc where
  | res : ResourceInfo → StagingSrc
  | dir : String → StagingSrc

/-- The env/staging data flow of the step loop in `process_message` (source
lines 616-637): each iteration remembers the previous step environment's
`CACHE_DIR` before building the next environment, and stages from the request
resources on step one and from that remembered cache directory afterwards.
A `create_env_json` failure aborts the whole request (`none`). -/
def staging_trace_go (working_folder working_subfolder volume_name : String)
    (resources : ResourceInfo) :
    Option StepEnv → List WorkflowStep → Option (List (StepEnv × StagingSrc))
  | _, [] => some []
  | prev_env, current_step :: rest =>
    match create_env_json working_folder working_subfolder volume_name current_step resources with
    | none => none
    | some env =>
      let src :=
        match prev_env with
        | none => StagingSrc.res resources
        | some pe => StagingSrc.dir pe.CACHE_DIR
      match staging_trace_go working_folder working_subfolder volume_name resources (some env) rest with
      | none => none
      | some tail => some ((env, src) :: tail)

/-- The whole-pipeline staging trace: one `(environment, staging source)` pair
per step, starting with no previous environment. -/
def staging_trace (steps : List WorkflowStep) (working_folder working_subfolder volume_name : String)
    (resources : ResourceInfo) : Option (List (StepEnv × StagingSrc)) :=
  staging_trace_go working_folder working_subfolder volume_name resources none steps

/-- Scanner state for the model of Python `str.format`. -/
inductive FmtState where
  | normal
  | afterLBrace
  | afterRBrace
  | inField (acc : List Char)

/-- Character-level model of Python `str.format(**kwargs)` restricted to the
named-field subset used by the dataset-name templates: `{field}` substitutes
the keyword value and fails (KeyError) when the field is absent, `{{`/`}}`
escape braces, and an empty field, an unterminated field or a stray `}` fails
(IndexError/ValueError).  `inField` carries the reversed accumulator of the
field name being read. -/
def format_go (env : List (String × String)) (st : FmtState) :
    List Char → Option (List Char)
  | [] =>
    match st with
    | FmtState.normal => some []
    | _ => none
  | c :: rest =>
    match st with
    | FmtState.normal =>
      if c == '{' then format_go env FmtState.afterLBrace rest
      else if c == '}' then format_go env FmtState.afterRBrace rest
      else (format_go env FmtState.normal rest).map (fun t => c :: t)
    | FmtState.afterLBrace =>
      if c == '{' then (format_go env FmtState.normal rest).map (fun t => '{' :: t)
      else if c == '}' then none
      else format_go env (FmtState.inField [c]) rest
    | FmtState.afterRBrace =>
      if c == '}' then (format_go env FmtState.normal rest).map (fun t => '}' :: t)
      else none
    | FmtState.inField acc =>
      if c == '}' then
        match env.lookup (⟨acc.reverse⟩ : String) with
        | none => none
        | some v => (format_go env FmtState.normal rest).map (fun t => v.data ++ t)
      else format_go env (FmtState.inField (c :: acc)) rest

/-- `template.format(**experiment_info)` on string-valued keyword arguments. -/
def format_template (template : String) (experiment_info : List (String × String)) :
    Option String :=
  (format_go experiment_info FmtState.normal template.data).map (fun cs => (⟨cs⟩ : String))

/-- The dataset-name computation of `__internal__.process_result_dataset`
(source lines 429-433): the step's `dataset_name_template` when present,
otherwise the default template, formatted with the experiment info only. -/
def dataset_name (workflow_step : WorkflowStep) (experiment_info : List (String × String)) :
    Option String :=
  match workflow_step.dataset_name_template with
  | some t => format_template t experiment_info
  | none => format_template "{name}_{date}_{experiment}" experiment_info

/-- One remote-repository operation performed while publishing results.  The
orchestrator's REST calls are logged in execution order so that claims about
"the publisher is never invoked" are claims about this log. -/
inductive Effect where
  | lookupDataset : String → Effect
  | createDataset : String → Effect
  | uploadFile : String → String → Effect
  | deleteFileMetadata : String → Effect
  | uploadFileMetadata : String → JValue → Effect
  | removeDatasetMetadata : String → Effect
  | uploadDatasetMetadata : String → JValue → Effect

/-- Oracle for the remote content repository's responses:
`extractors.get_datasetid_by_name`, the id field of the create-dataset
response (`none` models a response missing `id`, which raises), and
`files.upload_to_dataset` (`none` models a failed upload, which raises). -/
structure Remote where
  get_datasetid_by_name : String → Option String
  create_dataset_id : String → Option String
  upload_to_dataset : String → String → Option String

/-- Python truthiness of a `JValue`, as used by `(not md['replace']) is False`
and by `if process_metadata:`. -/
def jtruthy : JValue → Bool
  | JValue.str s => s != ""
  | JValue.int n => n != 0
  | JValue.list l => !l.isEmpty
  | JValue.dict d => !d.isEmpty

/-- Python `int(value)` on a results-descriptor value: integers pass through,
strings parse, anything else fails. -/
def jvalToInt : JValue → Option Int
  | JValue.int n => some n
  | JValue.str s => s.toInt?
  | _ => none

/-- The JSON-LD wrapper built by `__internal__.prepare_metadata`
(source lines 84-103). -/
def jsonld_envelope (host version creator_name : String) (metadata : JValue)
    (target_id : String) (target_is_dataset : Bool) : JValue :=
  JValue.dict
    ([("@context", JValue.list [JValue.str "https://clowder.ncsa.illinois.edu/contexts/metadata.jsonld"]),
      ("content", metadata),
      ("agent", JValue.dict
        [("@type", JValue.str "cat:extractor"),
         ("extractor_id", JValue.str
           (host ++ (if endsWithStr host "/" then "" else "/") ++ "api/extractors/" ++ creator_name)),
         ("version", JValue.str version),
         ("name", JValue.str creator_name)])] ++
     [((if target_is_dataset then "dataset_id" else "file_id"), JValue.str target_id)])

/-- `__internal__.prepare_metadata` (source lines 69-103): metadata that
already carries an `@context` key is passed through, anything else is wrapped
in the JSON-LD envelope. -/
def prepare_metadata (host version creator_name : String) (metadata : JValue)
    (target_id : String) (target_is_dataset : Bool) : JValue :=
  match metadata with
  | JValue.dict d =>
    if (d.lookup "@context").isSome then metadata
    else jsonld_envelope host version creator_name metadata target_id target_is_dataset
  | _ => jsonld_envelope host version creator_name metadata target_id target_is_dataset

/-- The `replace` flag of a result entry's metadata block:
`(not md['replace']) is False`, defaulting to `True` (source lines 345-347). -/
def metadata_replace_flag (md : JValue) : Bool :=
  match md with
  | JValue.dict d =>
    match d.lookup "replace" with
    | some rv => jtruthy rv
    | none => true
  | _ => true

/-- The working metadata of a result entry: the `data` sub-block when present,
otherwise the whole block (source lines 348-351). -/
def metadata_working (md : JValue) : JValue :=
  match md with
  | JValue.dict d =>
    match d.lookup "data" with
    | some dv => dv
    | none => md
  | _ => md

/-- `__internal__.upload_files` (source lines 312-363): upload each result
entry's file to the dataset; a missing remote file id raises `RuntimeError`;
an entry carrying a `metadata` block has it prepared and applied through
`update_file_metadata` (delete first when replacing, then upload; that helper
swallows its own errors).  Returns the `(path, file id)` pairs together with
the effect log. -/
def upload_files (R : Remote) (host dataset_id : String) (file_results : List JValue)
    (workflow_step : WorkflowStep) : Except String (List (String × String)) × List Effect :=
  match file_results with
  | [] => (Except.ok [], [])
  | one_result :: rest =>
    match one_result with
    | JValue.dict d =>
      match d.lookup "path" with
      | some (JValue.str path) =>
        match R.upload_to_dataset dataset_id path with
        | none =>
          (Except.error ("Unable to upload file to dataset ID " ++ dataset_id ++ ": " ++ path),
           [Effect.uploadFile dataset_id path])
        | some file_id =>
          let md_effects : List Effect :=
            match d.lookup "metadata" with
            | some md =>
              let prepared := prepare_metadata host workflow_step.docker_version_number
                workflow_step.makeflow_file (metadata_working md) file_id false
              (if metadata_replace_flag md then [Effect.deleteFileMetadata file_id] else []) ++
                [Effect.uploadFileMetadata file_id prepared]
            | none => []
          match upload_files R host dataset_id rest workflow_step with
          | (Except.ok ups, effs) =>
            (Except.ok ((path, file_id) :: ups),
             Effect.uploadFile dataset_id path :: (md_effects ++ effs))
          | (Except.error e, effs) =>
            (Except.error e, Effect.uploadFile dataset_id path :: (md_effects ++ effs))
      | _ => (Except.error "model: file result entry lacks a string path", [])
    | _ => (Except.error "model: file result entry is not a mapping", [])

/-- `__internal__.process_result_file` (source lines 365-401): resolve the
target dataset id from the request resource (directly, or through a file's
parent dataset), raising when neither is available, then upload the files. -/
def process_result_file (R : Remote) (host : String) (file_results : JValue)
    (workflow_step : WorkflowStep) (resources : ResourceInfo) :
    Except String (List (String × String)) × List Effect :=
  let dataset_id : Option String :=
    match resources.rtype, resources.rid with
    | some "dataset", some i => some i
    | _, _ =>
      match resources.rtype, resources.parent with
      | some "file", some par =>
        match par.ptype, par.pid with
        | some "dataset", some i => some i
        | _, _ => none
      | _, _ => none
  match dataset_id with
  | none => (Except.error "Unable to find dataset ID to place files into", [])
  | some dsid =>
    match file_results with
    | JValue.list l => upload_files R host dsid l workflow_step
    | _ => (Except.error "model: file results value is not a list", [])

/-- `__internal__.process_result_dataset` (source lines 403-474): compute the
dataset name from the template, look the dataset up by name, create it only
when absent, upload the `file`/`files` entries, then apply container-level
and process-level metadata (delete-before-upload when replacing). -/
def process_result_dataset (R : Remote) (host : String)
    (container_results : List (String × JValue)) (experiment_info : List (String × String))
    (workflow_step : WorkflowStep) (process_metadata : List (String × JValue)) :
    Except String (String × Bool × List (String × String)) × List Effect :=
  match dataset_name workflow_step experiment_info with
  | none => (Except.error "KeyError: template field missing from experiment info", [])
  | some name =>
    let resolved : Except String (String × Bool) × List Effect :=
      match R.get_datasetid_by_name name with
      | some dsid => (Except.ok (dsid, false), [Effect.lookupDataset name])
      | none =>
        match R.create_dataset_id name with
        | some dsid =>
          (Except.ok (dsid, true), [Effect.lookupDataset name, Effect.createDataset name])
        | none =>
          (Except.error "Return result from creating dataset has changed and is not supported",
           [Effect.lookupDataset name, Effect.createDataset name])
    match resolved with
    | (Except.error e, effs) => (Except.error e, effs)
    | (Except.ok (dataset_id, created), effs0) =>
      let up1 : Except String (List (String × String)) × List Effect :=
        match container_results.lookup "file" with
        | some (JValue.list l) => upload_files R host dataset_id l workflow_step
        | some _ => (Except.error "model: file results value is not a list", [])
        | none => (Except.ok [], [])
      match up1 with
      | (Except.error e, effs1) => (Except.error e, effs0 ++ effs1)
      | (Except.ok ups1, effs1) =>
        let up2 : Except String (List (String × String)) × List Effect :=
          match container_results.lookup "files" with
          | some (JValue.list l) => upload_files R host dataset_id l workflow_step
          | some _ => (Except.error "model: file results value is not a list", [])
          | none => (Except.ok [], [])
        match up2 with
        | (Except.error e, effs2) => (Except.error e, effs0 ++ effs1 ++ effs2)
        | (Except.ok ups2, effs2) =>
          let uploaded_files :=
            match container_results.lookup "files" with
            | some _ => ups2
            | none =>
              match container_results.lookup "file" with
              | some _ => ups1
              | none => []
          let replace_metadata :=
            match container_results.lookup "metadata" with
            | some md => metadata_replace_flag md
            | none => true
          let container_metadata : Option JValue :=
            match container_results.lookup "metadata" with
            | some md =>
              some (prepare_metadata host workflow_step.docker_version_number
                workflow_step.makeflow_file (metadata_working md) dataset_id true)
            | none => none
          let prepared_process_metadata : Option JValue :=
            if process_metadata.isEmpty then none
            else
              some (prepare_metadata host workflow_step.docker_version_number
                workflow_step.makeflow_file (JValue.dict process_metadata) dataset_id true)
          let md_effects : List Effect :=
            (match container_metadata with
             | some cm =>
               (if replace_metadata then [Effect.removeDatasetMetadata dataset_id] else []) ++
                 [Effect.uploadDatasetMetadata dataset_id cm]
             | none => []) ++
            (match prepared_process_metadata with
             | some pm => [Effect.uploadDatasetMetadata dataset_id pm]
             | none => [])
          (Except.ok (dataset_id, created, uploaded_files), effs0 ++ effs1 ++ effs2 ++ md_effects)

/-- `__internal__.process_results_json` (source lines 476-515): reject the
run (returning `False` and touching nothing remote) when the step's success
predicate rejects the return code; otherwise split off the non-reserved keys
as process metadata and publish the `container`, `file` and `files` payloads
in that order. -/
def process_results_json (R : Remote) (host : String) (proc_results : List (String × JValue))
    (experiment_info : List (String × String)) (workflow_step : WorkflowStep)
    (resources : ResourceInfo) : Except String Bool × List Effect :=
  match proc_results.lookup "code" with
  | none => (Except.error "KeyError: code", [])
  | some code_value =>
    match jvalToInt code_value with
    | none => (Except.error "ValueError: return code is not an integer", [])
    | some code =>
      if workflow_step.return_code_success code then
        let process_metadata := proc_results.filter
          (fun kv => !(["container", "file", "files", "code", "error", "message"].contains kv.1))
        let r1 : Except String Unit × List Effect :=
          match proc_results.lookup "container" with
          | some (JValue.dict c) =>
            match process_result_dataset R host c experiment_info workflow_step process_metadata with
            | (Except.ok _, effs) => (Except.ok (), effs)
            | (Except.error e, effs) => (Except.error e, effs)
          | some _ => (Except.error "model: container result is not a mapping", [])
          | none => (Except.ok (), [])
        match r1 with
        | (Except.error e, effs1) => (Except.error e, effs1)
        | (Except.ok _, effs1) =>
          let r2 : Except String Unit × List Effect :=
            match proc_results.lookup "file" with
            | some fv =>
              match process_result_file R host fv workflow_step resources with
              | (Except.ok _, effs) => (Except.ok (), effs)
              | (Except.error e, effs) => (Except.error e, effs)
            | none => (Except.ok (), [])
          match r2 with
          | (Except.error e, effs2) => (Except.error e, effs1 ++ effs2)
          | (Except.ok _, effs2) =>
            let r3 : Except String Unit × List Effect :=
              match proc_results.lookup "files" with
              | some fv =>
                match process_result_file R host fv workflow_step resources with
                | (Except.ok _, effs) => (Except.ok (), effs)
                | (Except.error e, effs) => (Except.error e, effs)
              | none => (Except.ok (), [])
            match r3 with
            | (Except.error e, effs3) => (Except.error e, effs1 ++ effs2 ++ effs3)
            | (Except.ok _, effs3) => (Except.ok true, effs1 ++ effs2 ++ effs3)
      else (Except.ok false, [])

/-- `PROC_WAIT_SLEEP_SEC` (source line 25). -/
def PROC_WAIT_SLEEP_SEC : Nat := 5

/-- `PROC_WAIT_TOTAL_SEC` (source line 26): 24 hours. -/
def PROC_WAIT_TOTAL_SEC : Nat := 24 * 60 * 60

/-- One iteration of the supervision wait loop, as observed through its two
`datetime.datetime.now()` reads: `t_while` is the elapsed seconds seen by the
`while` condition, `exited` whether `proc.returncode` was already set at the
body's check, and `t_end` the elapsed seconds seen by the end-of-iteration
timeout check. -/
structure WaitObs where
  t_while : Nat
  exited : Bool
  t_end : Nat

/-- Outcome of the wait loop of `process_message` (source lines 661-690):
the process was seen to have exited (`completed`), the end-of-iteration check
raised the too-long `RuntimeError` (`timedOut`), the `while` condition
observed the elapsed time past the budget and fell out of the loop without
raising (`leftLoop`), or the observation trace ran out (`ranOut`). -/
inductive WaitOutcome where
  | completed
  | timedOut
  | leftLoop
  | ranOut
deriving DecidableEq

/-- The supervision wait loop (source lines 661-690) over a trace of clock
observations: while the observed elapsed time is within `total`, an iteration
either observes process exit and breaks, or drains output, sleeps and then
raises if its end-of-iteration clock read exceeds `total`. -/
def wait_loop (total : Nat) : List WaitObs → WaitOutcome
  | [] => WaitOutcome.ranOut
  | o :: rest =>
    if o.t_while ≤ total then
      if o.exited then WaitOutcome.completed
      else if total < o.t_end then WaitOutcome.timedOut
      else wait_loop total rest
    else WaitOutcome.leftLoop

/-- A concrete encryption instance whose black box always succeeds and tags
the plaintext; the secured form is longer than the plaintext, witnessing the
spec's contract. -/
def encShift : Encryption :=
  ⟨fun s => some ("E" ++ s), by
    intro s e h
    intro hc
    have he : "E" ++ s = e := by
      simpa using h
    have hl := congrArg String.length hc
    rw [← he, String.length_append, String.length_append] at hl
    have h8 : ("secured:" : String).length = 8 := rfl
    have h1 : ("E" : String).length = 1 := rfl
    omega⟩

/-- A concrete encryption instance whose black box always fails (for example
when no pipeline key is configured), so `secure_string` yields `<removed>`. -/
def encNone : Encryption :=
  ⟨fun _ => none, by intro s e h; simp at h⟩

/-- A concrete remote-repository oracle: no dataset exists yet, creation and
uploads succeed. -/
def remoteStub : Remote :=
  ⟨fun _ => none, fun _ => some "dataset-1", fun _ _ => some "file-1"⟩

/-- The spec scenario's request resources:
`[image1.tif, image2.tif, exp.yaml]`, no pre-existing target. -/
def resScenario : ResourceInfo := ⟨none, none, none, ["image1.tif", "image2.tif", "exp.yaml"]⟩

/-- A request resource set whose experiment descriptor uses the `.yml`
spelling. -/
def resYml : ResourceInfo := ⟨none, none, none, ["image1.tif", "exp.yml"]⟩

/-- The experiment metadata of the spec scenario:
`{clowder: {username: "u", password: "p"}}`. -/
def mdScenario : List (String × JValue) :=
  [("clowder", JValue.dict [("username", JValue.str "u"), ("password", JValue.str "p")])]

/-- An experiment descriptor whose plaintext password is literally the
redaction marker. -/
def mdRemovedPassword : List (String × JValue) :=
  [("clowder", JValue.dict [("password", JValue.str "<removed>")])]

/-- `root.data` is a prefix of `p.data`: the path `p` lies textually inside
the directory prefix `root`. -/
def insideDir (root p : String) : Prop := root.data <+: p.data

/-- A two-entry tree with a sibling subtree before a depth-0 match for
`password` (case-insensitively). -/
def dictC4 : List (String × JValue) :=
  [("Alpha", JValue.dict [("password", JValue.str "nested")]),
   ("Password", JValue.str "top")]

/-- The same tree with the sibling subtree replaced by junk: keys and the
matched entry unchanged. -/
def dictC4sib : List (String × JValue) :=
  [("Alpha", JValue.str "replaced"),
   ("Password", JValue.str "top")]

theorem find_dict_key_unfold (h : List (String × JValue)) (key : String) (ci : Bool) :
    find_dict_key h key ci =
      match scan_level h (if ci then lowerStr key else key) ci with
      | some r => some r
      | none => find_in_dicts (collect_dicts h) (if ci then lowerStr key else key) := by
  rw [ find_dict_key]

theorem find_of_scan (h : List (String × JValue)) (key : String) (ci : Bool)
    (r : String × JValue)
    (hs : scan_level h (if ci then lowerStr key else key) ci = some r) :
    find_dict_key h key ci = some r := by
  rw [find_dict_key_unfold, hs]

theorem find_of_scan_none (h : List (String × JValue)) (key : String) (ci : Bool)
    (hs : scan_level h (if ci then lowerStr key else key) ci = none) :
    find_dict_key h key ci =
      find_in_dicts (collect_dicts h) (if ci then lowerStr key else key) := by
  rw [find_dict_key_unfold, hs]

theorem find_in_dicts_nil (ck : String) : find_in_dicts [] ck = none := by
  rw [ find_in_dicts.eq_def]

theorem find_none_of_no_dicts (h : List (String × JValue)) (key : String) (ci : Bool)
    (hs : scan_level h (if ci then lowerStr key else key) ci = none)
    (hd : collect_dicts h = []) :
    find_dict_key h key ci = none := by
  rw [find_of_scan_none h key ci hs, hd, find_in_dicts_nil]

theorem find_in_dicts_eq_findSome (ck : String) :
    ∀ ds : List (List (String × JValue)),
      find_in_dicts ds ck = (ds.map (fun d => find_dict_key d ck false)).findSome? id := by
  intro ds
  induction ds with
  | nil => simp [find_in_dicts_nil]
  | cons d rest ih =>
    rw [ find_in_dicts.eq_def]
    simp only [List.map_cons, List.findSome?_cons]
    cases find_dict_key d ck false with
    | some r => simp
    | none => simpa using ih

theorem scan_level_first_match (ck : String) (ci : Bool) :
    ∀ (h : List (String × JValue)) (i : Nat) (hi : i < h.length),
      keyMatch ci ck (h.get ⟨i, hi⟩).1 = true →
      (∀ j (hj : j < h.length), j < i → keyMatch ci ck (h.get ⟨j, hj⟩).1 = false) →
      scan_level h ck ci = some (h.get ⟨i, hi⟩) := by
  intro h
  induction h with
  | nil => intro i hi; simp at hi
  | cons kv rest ih =>
    intro i hi hm hb
    obtain ⟨k, v⟩ := kv
    cases i with
    | zero =>
      simp only [List.get] at hm ⊢
      simp [scan_level, hm]
    | succ n =>
      have h0 : keyMatch ci ck k = false := by
        have := hb 0 (by simp) (by omega)
        simpa using this
      simp only [scan_level, h0, Bool.false_eq_true, if_false]
      have hn : n < rest.length := by simpa using hi
      have hm' : keyMatch ci ck (rest.get ⟨n, hn⟩).1 = true := by simpa using hm
      have hb' : ∀ j (hj : j < rest.length), j < n → keyMatch ci ck (rest.get ⟨j, hj⟩).1 = false := by
        intro j hj hjn
        have := hb (j + 1) (by simpa using hj) (by omega)
        simpa using this
      simpa using ih n hn hm' hb'

/-- Claim C5: when the step's success predicate rejects the results
descriptor's return code, `process_results_json` reports failure (returns
`False`) and performs no remote operation at all: no dataset lookup or
creation, no file upload, no metadata attachment. -/
theorem process_results_failure_no_publish (R : Remote) (host : String)
    (proc_results : List (String × JValue)) (experiment_info : List (String × String))
    (workflow_step : WorkflowStep) (resources : ResourceInfo) (code_value : JValue) (code : Int)
    (hc : proc_results.lookup "code" = some code_value)
    (hi : jvalToInt code_value = some code)
    (hp : workflow_step.return_code_success code = false) :
    process_results_json R host proc_results experiment_info workflow_step resources
      = (Except.ok false, []) := by
  simp [process_results_json, hc, hi, hp]

/-- Witness for C5: a results descriptor with `code = 1` against the ODM
step's `code == 0` predicate is rejected with an empty effect log. -/
theorem process_results_failure_no_publish_witness :
    process_results_json remoteStub "host/" [("code", JValue.int 1)] [] odm_step resScenario
      = (Except.ok false, []) :=
  process_results_failure_no_publish remoteStub "host/" [("code", JValue.int 1)] [] odm_step
    resScenario (JValue.int 1) 1 rfl rfl (by decide)

/-- Counterexample for C3: for the spec scenario's step template
`"{date}_{experiment}_{name}"` and experiment descriptor
`{date: "2020-01-01", experiment: "trial1"}`, the code formats the template
with the experiment fields only, so the `{name}` field is unbound and
formatting raises `KeyError` — the dataset name is not
`"2020-01-01_trial1_OpenDroneMap workflow"` (the step's own name is never
substituted). -/
theorem dataset_name_template_cex :
    dataset_name odm_step [("date", "2020-01-01"), ("experiment", "trial1")] = none := rfl

/-- Claim C3 (amended): the dataset name is the step's
`dataset_name_template` (default `"{name}_{date}_{experiment}"` when the step
has none) formatted with the experiment-descriptor fields only; in the spec
scenario the descriptor must itself carry `name` for the formatting to
succeed, and with `name: "OpenDroneMap workflow"` added the result is exactly
`"2020-01-01_trial1_OpenDroneMap workflow"`. -/
theorem dataset_name_formatting :
    (∀ (workflow_step : WorkflowStep) (experiment_info : List (String × String)) (t : String),
      workflow_step.dataset_name_template = some t →
      dataset_name workflow_step experiment_info = format_template t experiment_info) ∧
    (∀ (workflow_step : WorkflowStep) (experiment_info : List (String × String)),
      workflow_step.dataset_name_template = none →
      dataset_name workflow_step experiment_info
        = format_template "{name}_{date}_{experiment}" experiment_info) ∧
    dataset_name odm_step
      [("date", "2020-01-01"), ("experiment", "trial1"), ("name", "OpenDroneMap workflow")]
      = some "2020-01-01_trial1_OpenDroneMap workflow" := by
  refine ⟨?_, ?_, rfl⟩
  · intro workflow_step experiment_info t ht
    simp [dataset_name, ht]
  · intro workflow_step experiment_info ht
    simp [dataset_name, ht]

/-- Witness for C3 (amended), instantiating the template case at the ODM
step. -/
theorem dataset_name_formatting_witness :
    dataset_name odm_step
      [("date", "2020-01-01"), ("experiment", "trial1"), ("name", "OpenDroneMap workflow")]
      = format_template "{date}_{experiment}_{name}"
          [("date", "2020-01-01"), ("experiment", "trial1"), ("name", "OpenDroneMap workflow")] :=
  dataset_name_formatting.1 odm_step
    [("date", "2020-01-01"), ("experiment", "trial1"), ("name", "OpenDroneMap workflow")]
    "{date}_{experiment}_{name}" rfl

theorem create_env_json_none_of_no_yaml (out_folder image_subfolder mount_volume_name : String)
    (workflow_step : WorkflowStep) (resources : ResourceInfo)
    (hall : ∀ f ∈ resources.local_paths, endsWithStr (lowerStr f) ".yaml" = false) :
    create_env_json out_folder image_subfolder mount_volume_name workflow_step resources
      = none := by
  have hf : resources.local_paths.find? (fun f => endsWithStr (lowerStr f) ".yaml") = none := by
    rw [List.find?_eq_none]
    intro x hx
    simp [hall x hx]
  simp [create_env_json, hf]

theorem find_first_in_append (p : String → Bool) (l₁ l₂ : List String) (f : String)
    (h₁ : ∀ g ∈ l₁, p g = false) (hf : p f = true) :
    (l₁ ++ f :: l₂).find? p = some f := by
  induction l₁ with
  | nil => simp [List.find?_cons, hf]
  | cons a rest ih =>
    have ha : p a = false := h₁ a (by simp)
    simp only [List.cons_append, List.find?_cons, ha]
    exact ih (fun g hg => h₁ g (by simp [hg]))

/-- Claim C7: building the step environment fails when no file of the
request's resource set matches the experiment-descriptor naming pattern
(lower-cased name ending in `.yaml`); when at least one matches, the first
match in resource-list order is selected and its base name becomes the
environment's experiment-metadata filename. -/
theorem create_env_experiment_file (out_folder image_subfolder mount_volume_name : String)
    (workflow_step : WorkflowStep) (resources : ResourceInfo) :
    ((∀ f ∈ resources.local_paths, endsWithStr (lowerStr f) ".yaml" = false) →
      create_env_json out_folder image_subfolder mount_volume_name workflow_step resources
        = none) ∧
    (∀ (l₁ : List String) (f : String) (l₂ : List String),
      resources.local_paths = l₁ ++ f :: l₂ →
      (∀ g ∈ l₁, endsWithStr (lowerStr g) ".yaml" = false) →
      endsWithStr (lowerStr f) ".yaml" = true →
      (create_env_json out_folder image_subfolder mount_volume_name workflow_step resources).map
        (fun e => e.EXPERIMENT_METADATA_FILENAME) = some (basename f)) := by
  constructor
  · exact create_env_json_none_of_no_yaml out_folder image_subfolder mount_volume_name
      workflow_step resources
  · intro l₁ f l₂ hsplit h₁ hf
    have hfind : resources.local_paths.find? (fun g => endsWithStr (lowerStr g) ".yaml")
        = some f := by
      rw [hsplit]
      exact find_first_in_append _ l₁ l₂ f h₁ hf
    simp [create_env_json, hfind]

/-- Witness for C7: in the spec scenario's resource list
`[image1.tif, image2.tif, exp.yaml]` the descriptor `exp.yaml` is found and
its base name recorded. -/
theorem create_env_experiment_file_witness :
    (create_env_json "/mnt/tmpabc" "/tmpabc" "testing" odm_step resScenario).map
      (fun e => e.EXPERIMENT_METADATA_FILENAME) = some "exp.yaml" :=
  (create_env_experiment_file "/mnt/tmpabc" "/tmpabc" "testing" odm_step resScenario).2
    ["image1.tif", "image2.tif"] "exp.yaml" [] rfl
    (by intro g hg; fin_cases hg <;> rfl) rfl

/-- Claim C10: the environment builder recognises as experiment descriptor
only files whose lower-cased name ends in `.yaml`, so a resource set whose
descriptor is spelled `.yml` or `.json` (and that has no `.yaml` file) makes
environment building fail — even though the later experiment-loading step
accepts `.yml` and `.yaml` (YAML loader) and everything else via the JSON
loader. -/
theorem env_builder_yaml_only (out_folder image_subfolder mount_volume_name : String)
    (workflow_step : WorkflowStep) (resources : ResourceInfo) :
    ((∀ f ∈ resources.local_paths, endsWithStr (lowerStr f) ".yaml" = false) →
      create_env_json out_folder image_subfolder mount_volume_name workflow_step resources
        = none) ∧
    (∀ p : String, splitextExt p = ".yml" ∨ splitextExt p = ".yaml" →
      choose_load_func p = LoadFunc.yaml) ∧
    (∀ p : String, splitextExt p ≠ ".yml" → splitextExt p ≠ ".yaml" →
      choose_load_func p = LoadFunc.json) ∧
    (endsWithStr (lowerStr "exp.yml") ".yaml" = false ∧
      choose_load_func "exp.yml" = LoadFunc.yaml) ∧
    (endsWithStr (lowerStr "exp.json") ".yaml" = false ∧
      choose_load_func "exp.json" = LoadFunc.json) := by
  refine ⟨?_, ?_, ?_, ⟨rfl, rfl⟩, ⟨rfl, rfl⟩⟩
  · exact create_env_json_none_of_no_yaml out_folder image_subfolder mount_volume_name
      workflow_step resources
  · intro p hp
    rcases hp with hp | hp <;> simp [choose_load_func, hp]
  · intro p h1 h2
    simp [choose_load_func, h1, h2]

/-- Witness for C10: a resource set whose only descriptor is `exp.yml` makes
`create_env_json` fail. -/
theorem env_builder_yaml_only_witness :
    create_env_json "/mnt/tmpabc" "/tmpabc" "testing" odm_step resYml = none :=
  (env_builder_yaml_only "/mnt/tmpabc" "/tmpabc" "testing" odm_step resYml).1
    (by intro f hf; fin_cases hf <;> rfl)

/-- Claim C9 (spec-modelled encryption): `secure_string` returns
`"secured:" ++ encrypted` when the encryption black box succeeds and exactly
the marker `"<removed>"` when it fails; the secured output is never the
`<removed>` placeholder, always carries the distinct `secured:` prefix, and
(by the spec's black-box contract) never equals the original plaintext. -/
theorem secure_string_spec (E : Encryption) (plain_text : String) :
    (∀ e, E.encrypt plain_text = some e →
      secure_string E plain_text = "secured:" ++ e ∧
      secure_string E plain_text ≠ "<removed>" ∧
      startsWithStr (secure_string E plain_text) "secured:" = true ∧
      secure_string E plain_text ≠ plain_text) ∧
    (E.encrypt plain_text = none → secure_string E plain_text = "<removed>") := by
  constructor
  · intro e he
    have h1 : secure_string E plain_text = "secured:" ++ e := by
      simp [secure_string, he]
    refine ⟨h1, ?_, ?_, ?_⟩
    · rw [h1]
      intro hc
      have h2 := congrArg String.data hc
      rw [String.data_append] at h2
      have h3 : ("secured:" : String).data = 's' :: ("ecured:" : String).data := rfl
      have h4 : ("<removed>" : String).data = '<' :: ("removed>" : String).data := rfl
      rw [h3, h4] at h2
      simp only [List.cons_append, List.cons.injEq] at h2
      exact absurd h2.1 (by decide)
    · rw [h1]
      have hp : ("secured:" : String).data <+: ("secured:" ++ e).data := by
        rw [String.data_append]
        exact List.prefix_append _ _
      simp only [startsWithStr, List.isPrefixOf_iff_prefix]
      exact hp
    · rw [h1]
      exact E.secured_ne_plain plain_text e he
  · intro he
    simp [secure_string, he]

/-- Witness for C9 at a concrete encryption instance and plaintext. -/
theorem secure_string_spec_witness :
    secure_string encShift "p" = "secured:" ++ "Ep" ∧
    secure_string encShift "p" ≠ "<removed>" ∧
    startsWithStr (secure_string encShift "p") "secured:" = true ∧
    secure_string encShift "p" ≠ "p" :=
  (secure_string_spec encShift "p").1 "Ep" rfl

/-- Claim C6 (amended, soundness half): over any observation trace, the wait
loop raises the timeout error only when some iteration ran with the `while`
clock within the budget, saw the process still running, and then observed an
end-of-iteration clock past the budget — in particular it never raises while
the observed elapsed time is within the timeout. -/
theorem wait_loop_timeout_props (total : Nat) :
    ∀ tr : List WaitObs,
      (wait_loop total tr = WaitOutcome.timedOut →
        ∃ o ∈ tr, o.t_while ≤ total ∧ o.exited = false ∧ total < o.t_end) ∧
      ((∀ o ∈ tr, o.t_end ≤ total) → wait_loop total tr ≠ WaitOutcome.timedOut) := by
  intro tr
  induction tr with
  | nil => simp [wait_loop]
  | cons o rest ih =>
    constructor
    · intro h
      rw [wait_loop] at h
      by_cases hw : o.t_while ≤ total
      · rw [if_pos hw] at h
        by_cases he : o.exited
        · simp [he] at h
        · simp only [he, Bool.false_eq_true, if_false] at h
          by_cases ht : total < o.t_end
          · exact ⟨o, by simp, hw, by simpa using he, ht⟩
          · rw [if_neg ht] at h
            obtain ⟨o', ho', hp⟩ := ih.1 h
            exact ⟨o', by simp [ho'], hp⟩
      · simp [if_neg hw] at h
    · intro hall h
      rw [wait_loop] at h
      by_cases hw : o.t_while ≤ total
      · rw [if_pos hw] at h
        by_cases he : o.exited
        · simp [he] at h
        · simp only [he, Bool.false_eq_true, if_false] at h
          have hto : ¬ total < o.t_end := by
            have := hall o (by simp)
            omega
          rw [if_neg hto] at h
          exact ih.2 (fun o' ho' => hall o' (by simp [ho'])) h
      · simp [if_neg hw] at h

/-- Witness for C6 (amended): a trace that stays within the budget is never
reported as timed out. -/
theorem wait_loop_timeout_props_witness :
    wait_loop 10 [⟨0, false, 5⟩] ≠ WaitOutcome.timedOut :=
  (wait_loop_timeout_props 10 [⟨0, false, 5⟩]).2
    (by intro o ho; simp at ho; subst ho; decide)

/-- Counterexample for C6: with the source's 24-hour budget, a process that
never exits and a trace whose end-of-iteration check reads exactly the budget
(no raise: the check requires strictly greater) while the next `while`
condition reads one second past it, the loop falls out with no timeout error
at all — the claim's "fails with a timeout error exactly once" does not hold
on this boundary crossing. -/
theorem wait_loop_timeout_cex :
    wait_loop PROC_WAIT_TOTAL_SEC
        [⟨0, false, 86400⟩, ⟨86401, false, 86401⟩] = WaitOutcome.leftLoop ∧
    WaitOutcome.leftLoop ≠ WaitOutcome.timedOut :=
  ⟨rfl, by decide⟩

/-- Counterexample for C1: when securing fails (the encryption black box
returns null, e.g. no pipeline key is configured) and the descriptor's
plaintext password is itself the literal `"<removed>"`, the final audit
`password` value equals the plaintext — so "never equals the plaintext
password value" does not hold as stated. -/
theorem audit_password_plaintext_removed_cex :
    step_audit_password encNone mdRemovedPassword
      = AuditResult.ok (some (JValue.str "<removed>")) := by
  have h1 : find_dict_key mdRemovedPassword "clowder" true
      = some ("clowder", JValue.dict [("password", JValue.str "<removed>")]) :=
    find_of_scan _ _ _ _ rfl
  have h2 : find_dict_key [("password", JValue.str "<removed>")] "password" true
      = some ("password", JValue.str "<removed>") :=
    find_of_scan _ _ _ _ rfl
  simp [step_audit_password, h1, h2, secure_string, encNone]

/-- Claim C1 (amended): the workstep audit metadata's `password` field is
populated last-write-wins from whichever of `{space, username, password}`
`find_dict_key` locates last, in that fixed order; whenever a clowder
`password` key is found, the final value is exactly the output of
`secure_string`, which differs from the plaintext except in the degenerate
case that securing fails and the plaintext is itself the literal
`"<removed>"`. -/
theorem audit_password_last_write_wins (E : Encryption)
    (experiment_metadata clowder_md : List (String × JValue)) (matched_key : String)
    (hc : find_dict_key experiment_metadata "clowder" true
      = some (matched_key, JValue.dict clowder_md)) :
    (∀ pk s, find_dict_key clowder_md "password" true = some (pk, JValue.str s) →
      step_audit_password E experiment_metadata
        = AuditResult.ok (some (JValue.str (secure_string E s))) ∧
      (s ≠ "<removed>" → secure_string E s ≠ s)) ∧
    (find_dict_key clowder_md "password" true = none →
      (∀ uk uv, find_dict_key clowder_md "username" true = some (uk, uv) →
        step_audit_password E experiment_metadata = AuditResult.ok (some uv)) ∧
      (find_dict_key clowder_md "username" true = none →
        (∀ sk sv, find_dict_key clowder_md "space" true = some (sk, sv) →
          step_audit_password E experiment_metadata = AuditResult.ok (some sv)) ∧
        (find_dict_key clowder_md "space" true = none →
          step_audit_password E experiment_metadata = AuditResult.ok none))) := by
  constructor
  · intro pk s hpw
    constructor
    · simp [step_audit_password, hc, hpw]
    · intro hs
      unfold secure_string
      cases hE : E.encrypt s with
      | some e => exact E.secured_ne_plain s e hE
      | none => exact fun hcontra => hs hcontra.symm
  · intro hpw
    refine ⟨?_, ?_⟩
    · intro uk uv hun
      simp [step_audit_password, hc, hpw, hun]
    · intro hun
      refine ⟨?_, ?_⟩
      · intro sk sv hsp
        simp [step_audit_password, hc, hpw, hun, hsp]
      · intro hsp
        simp [step_audit_password, hc, hpw, hun, hsp]

/-- Witness for C1 (amended) on the spec scenario
`{clowder: {username: "u", password: "p"}}` with a succeeding encryption:
the audit field holds the secured form, which differs from `"p"`. -/
theorem audit_password_last_write_wins_witness :
    step_audit_password encShift mdScenario
      = AuditResult.ok (some (JValue.str (secure_string encShift "p"))) ∧
    secure_string encShift "p" ≠ "p" := by
  have h := audit_password_last_write_wins encShift mdScenario
    [("username", JValue.str "u"), ("password", JValue.str "p")] "clowder"
    (find_of_scan _ _ _ _ rfl)
  have h1 := h.1 "password" "p" (find_of_scan _ _ _ _ rfl)
  exact ⟨h1.1, h1.2 (by decide)⟩

theorem staging_trace_go_spec (working_folder working_subfolder volume_name : String)
    (resources : ResourceInfo) :
    ∀ (steps : List WorkflowStep) (prev : Option StepEnv) (tr : List (StepEnv × StagingSrc)),
      staging_trace_go working_folder working_subfolder volume_name resources prev steps
        = some tr →
      (∀ h0 : 0 < tr.length,
        (tr.get ⟨0, h0⟩).2 = (match prev with
          | none => StagingSrc.res resources
          | some pe => StagingSrc.dir pe.CACHE_DIR)) ∧
      (∀ n (hn : n + 1 < tr.length) (hn' : n < tr.length),
        (tr.get ⟨n + 1, hn⟩).2 = StagingSrc.dir ((tr.get ⟨n, hn'⟩).1.CACHE_DIR)) := by
  intro steps
  induction steps with
  | nil =>
    intro prev tr h
    simp only [staging_trace_go, Option.some.injEq] at h
    subst h
    constructor
    · intro h0
      simp at h0
    · intro n hn
      simp at hn
  | cons s rest ih =>
    intro prev tr h
    simp only [staging_trace_go] at h
    rcases hce : create_env_json working_folder working_subfolder volume_name s resources with
      _ | env
    · rw [hce] at h
      simp at h
    · rw [hce] at h
      dsimp only at h
      rcases hgo : staging_trace_go working_folder working_subfolder volume_name resources
          (some env) rest with _ | tail
      · rw [hgo] at h
        simp at h
      · rw [hgo] at h
        simp only [Option.some.injEq] at h
        subst h
        have htail := ih (some env) tail hgo
        constructor
        · intro h0
          cases prev <;> rfl
        · intro n hn hn'
          cases n with
          | zero =>
            have h0 : 0 < tail.length := by
              simp at hn
              omega
            exact htail.1 h0
          | succ m =>
            have hm : m + 1 < tail.length := by
              simp at hn
              omega
            have hm' : m < tail.length := by omega
            exact htail.2 m hm hm'

/-- Claim C2: along any pipeline, the staging source recorded for step `n+1`
is exactly the `CACHE_DIR` of the environment produced for step `n`, and the
first step stages from the request's resource set. -/
theorem cache_handoff (steps : List WorkflowStep)
    (working_folder working_subfolder volume_name : String) (resources : ResourceInfo)
    (tr : List (StepEnv × StagingSrc))
    (h : staging_trace steps working_folder working_subfolder volume_name resources
      = some tr) :
    (∀ h0 : 0 < tr.length, (tr.get ⟨0, h0⟩).2 = StagingSrc.res resources) ∧
    (∀ n (hn : n + 1 < tr.length) (hn' : n < tr.length),
      (tr.get ⟨n + 1, hn⟩).2 = StagingSrc.dir ((tr.get ⟨n, hn'⟩).1.CACHE_DIR)) := by
  have hspec := staging_trace_go_spec working_folder working_subfolder volume_name resources
    steps none tr h
  exact ⟨hspec.1, hspec.2⟩

/-- Witness for C2 on the compiled-in two-step pipeline: step 2 stages from
step 1's cache directory. -/
theorem cache_handoff_witness :
    (((staging_trace WORKFLOW "/mnt/tmpabc" "/tmpabc" "testing" resScenario).getD []).get
        ⟨1, by decide⟩).2
      = StagingSrc.dir
        ((((staging_trace WORKFLOW "/mnt/tmpabc" "/tmpabc" "testing" resScenario).getD []).get
            ⟨0, by decide⟩).1.CACHE_DIR) := by
  have h := cache_handoff WORKFLOW "/mnt/tmpabc" "/tmpabc" "testing" resScenario
    ((staging_trace WORKFLOW "/mnt/tmpabc" "/tmpabc" "testing" resScenario).getD []) (by rfl)
  exact h.2 0 (by decide) (by decide)

/-- Claim C4: `find_dict_key` compares the key against every key of the
current level first (case-insensitively when requested, against the lowered
key) and returns the first match without recursing into any nested mapping —
the result is unchanged under arbitrary replacement of every sibling entry's
value; only when no key of the current level matches does it descend into the
nested mappings left to right, and those recursive searches are
case-sensitive. -/
theorem find_dict_key_breadth_first (h : List (String × JValue)) (key : String) (ci : Bool) :
    (∀ i (hi : i < h.length),
      keyMatch ci (if ci then lowerStr key else key) (h.get ⟨i, hi⟩).1 = true →
      (∀ j (hj : j < h.length), j < i →
        keyMatch ci (if ci then lowerStr key else key) (h.get ⟨j, hj⟩).1 = false) →
      ∀ h' : List (String × JValue),
        h'.map Prod.fst = h.map Prod.fst →
        h'[i]? = h[i]? →
        find_dict_key h' key ci = some (h.get ⟨i, hi⟩)) ∧
    (scan_level h (if ci then lowerStr key else key) ci = none →
      find_dict_key h key ci =
        ((collect_dicts h).map
          (fun d => find_dict_key d (if ci then lowerStr key else key) false)).findSome? id) := by
  constructor
  · intro i hi hm hb h' hkeys hient
    have hlen : h'.length = h.length := by
      have := congrArg List.length hkeys
      simpa using this
    have hi' : i < h'.length := by omega
    have hget : h'.get ⟨i, hi'⟩ = h.get ⟨i, hi⟩ := by
      rw [List.getElem?_eq_getElem hi', List.getElem?_eq_getElem hi] at hient
      have := Option.some.inj hient
      simpa [List.get_eq_getElem] using this
    have hkey : ∀ j (hj' : j < h'.length) (hj : j < h.length),
        (h'.get ⟨j, hj'⟩).1 = (h.get ⟨j, hj⟩).1 := by
      intro j hj' hj
      have h1 := congrArg (fun l => l[j]?) hkeys
      simp only [List.getElem?_map] at h1
      rw [List.getElem?_eq_getElem hj', List.getElem?_eq_getElem hj] at h1
      simp only [Option.map_some'] at h1
      have := Option.some.inj h1
      simpa [List.get_eq_getElem] using this
    have hm' : keyMatch ci (if ci then lowerStr key else key) (h'.get ⟨i, hi'⟩).1 = true := by
      rw [hget]
      exact hm
    have hb' : ∀ j (hj : j < h'.length), j < i →
        keyMatch ci (if ci then lowerStr key else key) (h'.get ⟨j, hj⟩).1 = false := by
      intro j hj hji
      rw [hkey j hj (by omega)]
      exact hb j (by omega) hji
    have hscan := scan_level_first_match (if ci then lowerStr key else key) ci h' i hi' hm' hb'
    rw [find_of_scan h' key ci _ hscan, hget]
  · intro hscan
    rw [find_of_scan_none h key ci hscan]
    exact find_in_dicts_eq_findSome _ (collect_dicts h)

/-- Witness for C4: the depth-0 match `Password` is returned even after the
sibling subtree under `Alpha` (which also contains a `password` key) is
replaced by a junk leaf. -/
theorem find_dict_key_breadth_first_witness :
    find_dict_key dictC4sib "password" true = some ("Password", JValue.str "top") := by
  have h := (find_dict_key_breadth_first dictC4 "password" true).1 1 (by decide)
    (by decide)
    (by
      intro j hj hj1
      have hj0 : j = 0 := by omega
      subst hj0
      have hv : dictC4.get ⟨0, hj⟩ = ("Alpha", JValue.dict [("password", JValue.str "nested")]) :=
        rfl
      rw [hv]
      decide)
    dictC4sib (by decide) rfl
  exact h

theorem list_cases_of_mnt_pref (l : List Char) (h : l <+: ("/mnt/" : String).data) :
    l = [] ∨ l = ['/'] ∨ l = ['/', 'm'] ∨ l = ['/', 'm', 'n'] ∨
    l = ['/', 'm', 'n', 't'] ∨ l = ['/', 'm', 'n', 't', '/'] := by
  have hm : ("/mnt/" : String).data = ['/', 'm', 'n', 't', '/'] := rfl
  rw [hm] at h
  have htake := List.prefix_iff_eq_take.mp h
  have hlen : l.length ≤ 5 := by
    have hle := h.length_le
    simpa using hle
  obtain ⟨k, hk⟩ : ∃ k, l.length = k := ⟨_, rfl⟩
  rw [hk] at htake hlen
  interval_cases k <;> simp only [List.take] at htake <;> tauto

theorem ends_slash_suffix (wf : String) (h : endsWithStr wf "/" = true) :
    (['/'] : List Char).isSuffixOf wf.data = true := h

theorem not_inside_mnt_results (wf : String)
    (hwf : ¬ insideDir "/mnt/" (wf ++ "/")) :
    ¬ insideDir "/mnt/" (pjoin wf "results.json") := by
  intro hm
  unfold insideDir at hm hwf
  have hdata : (wf ++ "/").data = wf.data ++ ['/'] := by
    rw [String.data_append]
  rw [hdata] at hwf
  by_cases h0 : wf = ""
  · subst h0
    have hpj : pjoin "" "results.json" = "results.json" := rfl
    rw [hpj] at hm
    rw [← List.isPrefixOf_iff_prefix] at hm
    exact absurd hm (by decide)
  · by_cases h1 : endsWithStr wf "/" = true
    · have hpj : pjoin wf "results.json" = wf ++ "results.json" := by
        have hb : startsWithStr "results.json" "/" = false := rfl
        simp [pjoin, hb, h1]
      rw [hpj, String.data_append] at hm
      rcases List.prefix_or_prefix_of_prefix hm (List.prefix_append wf.data _) with hA | hB
      · exact hwf (hA.trans (List.prefix_append _ _))
      · rcases list_cases_of_mnt_pref wf.data hB with hd | hd | hd | hd | hd | hd
        · refine absurd ?_ h0
          cases wf with
          | mk d =>
            simp only at hd
            simp [hd]
        · rw [hd] at hm
          rw [← List.isPrefixOf_iff_prefix] at hm
          exact absurd hm (by decide)
        · have hsfx := ends_slash_suffix wf h1
          rw [hd] at hsfx
          exact absurd hsfx (by decide)
        · have hsfx := ends_slash_suffix wf h1
          rw [hd] at hsfx
          exact absurd hsfx (by decide)
        · have hsfx := ends_slash_suffix wf h1
          rw [hd] at hsfx
          exact absurd hsfx (by decide)
        · apply hwf
          rw [hd]
          exact ⟨['/'], rfl⟩
    · have h1' : endsWithStr wf "/" = false := by
        cases hE : endsWithStr wf "/" with
        | true => exact absurd hE h1
        | false => rfl
      have h0' : (wf == "") = false := by
        simpa using h0
      have hpj : pjoin wf "results.json" = wf ++ "/" ++ "results.json" := by
        have hb : startsWithStr "results.json" "/" = false := rfl
        simp [pjoin, hb, h1', h0']
      rw [hpj, String.data_append, String.data_append] at hm
      have hslash : ("/" : String).data = ['/'] := rfl
      rw [hslash] at hm
      rcases List.prefix_or_prefix_of_prefix hm
          (List.prefix_append (wf.data ++ ['/']) _) with hA | hB
      · exact hwf hA
      · rcases list_cases_of_mnt_pref (wf.data ++ ['/']) hB with hd | hd | hd | hd | hd | hd
        · simp at hd
        · have hnil : wf.data = [] := by
            have hdl := congrArg (fun l => l.dropLast) hd
            simpa using hdl
          refine absurd ?_ h0
          cases wf with
          | mk d =>
            simp only at hnil
            simp [hnil]
        · have hlast := congrArg List.getLast? hd
          rw [List.getLast?_concat] at hlast
          simp at hlast
        · have hlast := congrArg List.getLast? hd
          rw [List.getLast?_concat] at hlast
          simp at hlast
        · have hlast := congrArg List.getLast? hd
          rw [List.getLast?_concat] at hlast
          simp at hlast
        · apply hwf
          rw [hd]

/-- Counterexample for C8: with the documented deployment configuration the
working space is `/mnt` itself (`-e WORKING_SPACE=/mnt` in the source's
docker-run comment), so a per-request working folder such as `/mnt/tmpabc`
puts the results-file path `/mnt/tmpabc/results.json` inside the base mount
path `/mnt/` — "never inside the base mount path" is false. -/
theorem results_path_cex :
    (create_env_json "/mnt/tmpabc" "/tmpabc" "testing" odm_step resScenario).map
      (fun e => e.RESULTS_FILE_PATH) = some "/mnt/tmpabc/results.json" ∧
    insideDir "/mnt/" "/mnt/tmpabc/results.json" :=
  ⟨rfl, List.isPrefixOf_iff_prefix.mp (by decide)⟩

/-- Claim C8 (amended): the results-file path produced by the environment
builder always lies inside the request's working folder (it is
`os.path.join(working_folder, "results.json")`); it avoids the base mount
path `/mnt/` exactly when the working folder itself does — nothing in the
code keeps the working folder out of the base mount. -/
theorem results_path_location (out_folder image_subfolder mount_volume_name : String)
    (workflow_step : WorkflowStep) (resources : ResourceInfo) (env : StepEnv)
    (h : create_env_json out_folder image_subfolder mount_volume_name workflow_step resources
      = some env) :
    (∃ rest, env.RESULTS_FILE_PATH = out_folder ++ rest) ∧
    (¬ insideDir "/mnt/" (out_folder ++ "/") →
      ¬ insideDir "/mnt/" env.RESULTS_FILE_PATH) := by
  have hrfp : env.RESULTS_FILE_PATH = pjoin out_folder "results.json" := by
    rcases hfind : resources.local_paths.find? (fun f => endsWithStr (lowerStr f) ".yaml") with
      _ | fe
    · simp [create_env_json, hfind] at h
    · simp only [create_env_json, hfind, Option.some.injEq] at h
      rw [← h]
  constructor
  · rw [hrfp]
    have hb : startsWithStr "results.json" "/" = false := rfl
    by_cases hc : (out_folder == "" || endsWithStr out_folder "/") = true
    · refine ⟨"results.json", ?_⟩
      simp [pjoin, hb, hc]
    · refine ⟨"/" ++ "results.json", ?_⟩
      have hc' : (out_folder == "" || endsWithStr out_folder "/") = false := by
        cases hE : (out_folder == "" || endsWithStr out_folder "/") with
        | true => exact absurd hE hc
        | false => rfl
      simp [pjoin, hb, hc', String.append_assoc]
  · intro hout
    rw [hrfp]
    exact not_inside_mnt_results out_folder hout

/-- Witness for C8 (amended): with a working folder outside `/mnt/`, the
results-file path stays outside `/mnt/`. -/
theorem results_path_location_witness :
    ¬ insideDir "/mnt/"
      (((create_env_json "/tmp/work" "/work" "testing" odm_step resScenario).getD
          ⟨"", "", "", "", "", "", "", ""⟩).RESULTS_FILE_PATH) := by
  have h := results_path_location "/tmp/work" "/work" "testing" odm_step resScenario
    ((create_env_json "/tmp/work" "/work" "testing" odm_step resScenario).getD
      ⟨"", "", "", "", "", "", "", ""⟩) (by rfl)
  refine h.2 ?_
  intro hc
  have hb : ("/mnt/" : String).data.isPrefixOf ("/tmp/work" ++ "/").data = true :=
    List.isPrefixOf_iff_prefix.mpr hc
  exact absurd hb (by decide)

end DroneMakeflow
